import Mathlib

/-!
Shallow embedding of the pyalveo local cache subsystem (pyalveo/cache.py)
and of the fetch-or-cache coordinator inside the client (pyalveo/pyalveo.py).

Modelling choices:
- timestamps are integers (seconds); the code stores ISO-8601 strings and
  subtracts parsed datetimes, which we model as integer subtraction;
- the SQLite tables `items`, `documents` and `primary_texts` are association
  lists scanned front to back (`fetchone` returns the first matching row,
  `DELETE` removes all matching rows, `INSERT` appends);
- blob files live in a finite map from generated names to byte lists; the
  uuid4-generated file names are modelled as natural numbers drawn from a
  counter, with the collision-retry loop of `__generate_filepath` kept;
- exceptions become an `Except` error type: `notFound` stands for the
  ValueError raised on a missing row, `storageError` for the IOError raised
  (naming the document url and the file path) when a backing file is
  unreadable.
-/

namespace PyAlveo

/-- A row of the `items` or `primary_texts` table: (url, text payload, datetime). -/
structure TextRow where
  url : String
  payload : String
  time : Int
deriving DecidableEq, Repr

/-- A row of the `documents` table: (url, file path, datetime). -/
structure DocRow where
  url : String
  path : Nat
  time : Int
deriving DecidableEq, Repr

/-- Errors raised by cache lookups: `notFound` models the
ValueError("Item not present in cache"), `storageError` models the IOError
raised by `get_document` naming the document url and the backing file path. -/
inductive CacheError where
  | notFound : CacheError
  | storageError : String → Nat → CacheError
deriving DecidableEq, Repr

/-- The blob file directory: a finite map from generated file names to bytes. -/
def BlobFS : Type := List (Nat × List Nat)

/-- The state of a `Cache` object: its `max_age` setting, the three tables of
the SQLite index, the blob file directory, and the counter feeding the
file-name generator. -/
structure Cache where
  max_age : Int
  items : List TextRow
  documents : List DocRow
  primary_texts : List TextRow
  fs : List (Nat × List Nat)
  nextId : Nat
deriving DecidableEq, Repr

/-- A freshly constructed cache over an empty directory. -/
def emptyCache (maxAge : Int) : Cache :=
  ⟨maxAge, [], [], [], [], 0⟩

/-- First row matching a url in an `items` / `primary_texts` table
(`fetchone` on `SELECT * ... WHERE url=?`). -/
def findRow (rows : List TextRow) (url : String) : Option TextRow :=
  rows.find? (fun r => r.url == url)

/-- First row matching a url in the `documents` table. -/
def findDocRow (rows : List DocRow) (url : String) : Option DocRow :=
  rows.find? (fun r => r.url == url)

/-- `os.path.isfile` on the blob directory. -/
def isFile (fs : List (Nat × List Nat)) (p : Nat) : Bool :=
  (fs.find? (fun e => e.1 == p)).isSome

/-- Read a blob file; `none` when the file does not exist. -/
def readFile (fs : List (Nat × List Nat)) (p : Nat) : Option (List Nat) :=
  (fs.find? (fun e => e.1 == p)).map (fun e => e.2)

/-- Writing the blob file in binary mode: create or overwrite it. -/
def writeFile (fs : List (Nat × List Nat)) (p : Nat) (d : List Nat) :
    List (Nat × List Nat) :=
  (p, d) :: fs.filter (fun e => !(e.1 == p))

/-- `os.unlink(path)`. -/
def unlink (fs : List (Nat × List Nat)) (p : Nat) : List (Nat × List Nat) :=
  fs.filter (fun e => !(e.1 == p))

/-- `Cache.__exists_row_not_too_old`, verbatim from the source: a missing row
gives False; otherwise `age = (record_time - now).total_seconds()` — note the
order of the operands in the source — and the row is rejected exactly when
`age > max_age`. -/
def existsRowNotTooOld (maxAge : Int) (recordTime : Option Int) (now : Int) : Bool :=
  match recordTime with
  | none => false
  | some rt =>
    let age := rt - now
    if age > maxAge then false else true

/-- `Cache.has_item`. -/
def has_item (c : Cache) (url : String) (now : Int) : Bool :=
  existsRowNotTooOld c.max_age ((findRow c.items url).map TextRow.time) now

/-- `Cache.has_document`. -/
def has_document (c : Cache) (url : String) (now : Int) : Bool :=
  existsRowNotTooOld c.max_age ((findDocRow c.documents url).map DocRow.time) now

/-- `Cache.has_primary_text`. -/
def has_primary_text (c : Cache) (url : String) (now : Int) : Bool :=
  existsRowNotTooOld c.max_age ((findRow c.primary_texts url).map TextRow.time) now

/-- `Cache.get_item`: the metadata text of the first matching row, or the
ValueError on a missing row. -/
def get_item (c : Cache) (url : String) : Except CacheError String :=
  match findRow c.items url with
  | none => Except.error CacheError.notFound
  | some r => Except.ok r.payload

/-- `Cache.get_primary_text`. -/
def get_primary_text (c : Cache) (url : String) : Except CacheError String :=
  match findRow c.primary_texts url with
  | none => Except.error CacheError.notFound
  | some r => Except.ok r.payload

/-- `Cache.get_document`: look up the file path in the index, then read the
backing file; an unreadable file raises the IOError naming the document url
and the file path. -/
def get_document (c : Cache) (url : String) : Except CacheError (List Nat) :=
  match findDocRow c.documents url with
  | none => Except.error CacheError.notFound
  | some r =>
    match readFile c.fs r.path with
    | some d => Except.ok d
    | none => Except.error (CacheError.storageError url r.path)

/-- `Cache.add_item`: DELETE all rows for the url, then INSERT the new row
stamped with the current time. -/
def add_item (c : Cache) (url meta : String) (now : Int) : Cache :=
  { c with items := c.items.filter (fun r => !(r.url == url)) ++ [⟨url, meta, now⟩] }

/-- `Cache.add_primary_text`. -/
def add_primary_text (c : Cache) (url text : String) (now : Int) : Cache :=
  { c with primary_texts :=
      c.primary_texts.filter (fun r => !(r.url == url)) ++ [⟨url, text, now⟩] }

/-- `Cache.__generate_filepath`: draw a candidate name; if a file with that
name already exists, retry with the next candidate (the uuid stream is
modelled by consecutive counter values; fuel bounds the retry loop). -/
def generate_filepath (fs : List (Nat × List Nat)) : Nat → Nat → Nat
  | 0, cand => cand
  | fuel + 1, cand =>
    if isFile fs cand then generate_filepath fs fuel (cand + 1) else cand

/-- The loop of `Cache.add_document` over the rows already stored for the
url: unlink the backing file of each row when that file exists. -/
def deleteOldFiles (olds : List DocRow) (fs : List (Nat × List Nat)) :
    List (Nat × List Nat) :=
  olds.foldl (fun fs r => if isFile fs r.path then unlink fs r.path else fs) fs

/-- `Cache.add_document`: generate a fresh file path and write the data to
it; then, for every existing row for the url, unlink its backing file when
that file exists; then DELETE the rows and INSERT the new row. -/
def add_document (c : Cache) (url : String) (data : List Nat) (now : Int) : Cache :=
  let path := generate_filepath c.fs (c.fs.length + 1) c.nextId
  let fs1 := writeFile c.fs path data
  let olds := c.documents.filter (fun r => r.url == url)
  let fs2 := deleteOldFiles olds fs1
  { c with
      fs := fs2
      documents := c.documents.filter (fun r => !(r.url == url)) ++ [⟨url, path, now⟩]
      nextId := path + 1 }

/-- Well-formedness of the file-name generator state: every file name already
used (by an index row or a blob file) is below the counter, so the next
generated name is fresh. True of every cache reachable from construction. -/
def PathsBounded (c : Cache) : Prop :=
  (∀ r ∈ c.documents, r.path < c.nextId) ∧ ∀ e ∈ c.fs, e.1 < c.nextId

/-! ### Generic list lemmas -/

theorem find?_filter_not {α : Type} (l : List α) (p : α → Bool) :
    (l.filter (fun x => !(p x))).find? p = none := by
  induction l with
  | nil => rfl
  | cons a l ih =>
    by_cases h : p a = true
    · simp [List.filter_cons, h, ih]
    · simp only [Bool.not_eq_true] at h
      simp [List.filter_cons, h, List.find?, ih]

theorem find?_append_of_none {α : Type} (l₁ l₂ : List α) (p : α → Bool)
    (h : l₁.find? p = none) : (l₁ ++ l₂).find? p = l₂.find? p := by
  induction l₁ with
  | nil => rfl
  | cons a l ih =>
    simp only [List.find?] at h ⊢
    cases hp : p a with
    | true => simp [hp] at h
    | false =>
      simp only [hp] at h ⊢
      exact ih h

theorem find?_eq_none_of_forall {α : Type} (l : List α) (p : α → Bool)
    (h : ∀ x ∈ l, p x = false) : l.find? p = none := by
  induction l with
  | nil => rfl
  | cons a l ih =>
    have ha := h a (by simp)
    simp only [List.find?, ha]
    exact ih (fun x hx => h x (by simp [hx]))

theorem find?_filter_of_none {α : Type} (l : List α) (p q : α → Bool)
    (h : l.find? p = none) : (l.filter q).find? p = none := by
  apply find?_eq_none_of_forall
  intro x hx
  have hx' := (List.mem_filter.mp hx).1
  by_contra hp
  simp only [Bool.not_eq_false] at hp
  have := List.find?_eq_none.mp h x hx'
  simp [hp] at this

theorem filter_of_filter_not_append {α : Type} (l : List α) (x : α) (p : α → Bool)
    (hx : p x = true) : ((l.filter (fun y => !(p y))) ++ [x]).filter p = [x] := by
  rw [List.filter_append]
  have h1 : (l.filter (fun y => !(p y))).filter p = [] := by
    rw [List.filter_filter]
    apply List.filter_eq_nil_iff.mpr
    intro a _
    by_cases h : p a = true <;> simp [h]
  rw [h1, List.filter_cons, hx]
  rfl

/-! ### Row-lookup lemmas for the three tables -/

theorem findRow_add (rows : List TextRow) (url meta : String) (t : Int) :
    findRow (rows.filter (fun r => !(r.url == url)) ++ [⟨url, meta, t⟩]) url =
      some ⟨url, meta, t⟩ := by
  unfold findRow
  rw [find?_append_of_none _ _ _ (find?_filter_not rows (fun r => r.url == url))]
  simp [List.find?]

theorem findDocRow_add (rows : List DocRow) (url : String) (p : Nat) (t : Int) :
    findDocRow (rows.filter (fun r => !(r.url == url)) ++ [⟨url, p, t⟩]) url =
      some ⟨url, p, t⟩ := by
  unfold findDocRow
  rw [find?_append_of_none _ _ _ (find?_filter_not rows (fun r => r.url == url))]
  simp [List.find?]

theorem find?_filter_of_imp {α : Type} (l : List α) (p q : α → Bool)
    (h : ∀ x, p x = true → q x = true) : (l.filter q).find? p = l.find? p := by
  induction l with
  | nil => rfl
  | cons a l ih =>
    rw [List.filter_cons]
    cases hq : q a with
    | true =>
      simp only [if_pos rfl]
      cases hp : p a with
      | true => simp [List.find?, hp]
      | false => simp [List.find?, hp, ih]
    | false =>
      have hp : p a = false := by
        cases hpa : p a with
        | true => rw [h a hpa] at hq; exact hq
        | false => rfl
      simp only [Bool.false_eq_true, if_false]
      rw [ih, List.find?]
      simp [hp]

/-! ### Blob-store lemmas -/

theorem isFile_eq_readFile_isSome (fs : List (Nat × List Nat)) (p : Nat) :
    isFile fs p = (readFile fs p).isSome := by
  unfold isFile readFile
  cases fs.find? (fun e => e.1 == p) <;> rfl

theorem isFile_eq_false_of_bounded (fs : List (Nat × List Nat)) (n : Nat)
    (h : ∀ e ∈ fs, e.1 < n) : isFile fs n = false := by
  unfold isFile
  rw [find?_eq_none_of_forall]
  · rfl
  · intro e he
    have hne : e.1 ≠ n := Nat.ne_of_lt (h e he)
    simp [hne]

theorem generate_filepath_eq (fs : List (Nat × List Nat)) (fuel n : Nat)
    (h : isFile fs n = false) : generate_filepath fs fuel n = n := by
  cases fuel with
  | zero => rfl
  | succ fuel => simp [generate_filepath, h]

theorem readFile_writeFile_self (fs : List (Nat × List Nat)) (p : Nat)
    (d : List Nat) : readFile (writeFile fs p d) p = some d := by
  simp [readFile, writeFile, List.find?]

theorem readFile_writeFile_ne (fs : List (Nat × List Nat)) (p q : Nat)
    (d : List Nat) (h : q ≠ p) :
    readFile (writeFile fs p d) q = readFile fs q := by
  unfold readFile writeFile
  rw [List.find?]
  have hpq : ((p, d).1 == q) = false := by simp [Ne.symm h]
  rw [hpq]
  rw [find?_filter_of_imp]
  intro e he
  simp only [beq_iff_eq] at he
  simp [he, h]

theorem readFile_unlink_ne (fs : List (Nat × List Nat)) (p q : Nat) (h : q ≠ p) :
    readFile (unlink fs p) q = readFile fs q := by
  unfold readFile unlink
  rw [find?_filter_of_imp]
  intro e he
  simp only [beq_iff_eq] at he
  simp [he, h]

theorem isFile_unlink_self (fs : List (Nat × List Nat)) (p : Nat) :
    isFile (unlink fs p) p = false := by
  have h := find?_filter_not fs (fun e : Nat × List Nat => e.1 == p)
  simp only [isFile, unlink]
  rw [h]
  rfl

theorem readFile_deleteOldFiles (olds : List DocRow) (fs : List (Nat × List Nat))
    (p : Nat) (h : ∀ r ∈ olds, r.path ≠ p) :
    readFile (deleteOldFiles olds fs) p = readFile fs p := by
  induction olds generalizing fs with
  | nil => rfl
  | cons r olds ih =>
    have hr : r.path ≠ p := h r (by simp)
    have hrec := ih (if isFile fs r.path then unlink fs r.path else fs)
      (fun x hx => h x (by simp [hx]))
    unfold deleteOldFiles at hrec ⊢
    rw [List.foldl_cons, hrec]
    by_cases hf : isFile fs r.path = true
    · rw [if_pos hf, readFile_unlink_ne fs r.path p (Ne.symm hr)]
    · rw [if_neg hf]

theorem mem_deleteOldFiles (olds : List DocRow) (fs : List (Nat × List Nat))
    (e : Nat × List Nat) (he : e ∈ deleteOldFiles olds fs) : e ∈ fs := by
  induction olds generalizing fs with
  | nil => exact he
  | cons r olds ih =>
    unfold deleteOldFiles at he
    rw [List.foldl_cons] at he
    have h1 : e ∈ (if isFile fs r.path then unlink fs r.path else fs) := ih _ he
    by_cases hf : isFile fs r.path = true
    · rw [if_pos hf] at h1
      exact (List.mem_filter.mp h1).1
    · rw [if_neg hf] at h1
      exact h1

/-! ### The effect of add_document on a well-formed cache -/

theorem add_document_eq (c : Cache) (url : String) (data : List Nat) (t : Int)
    (hfree : isFile c.fs c.nextId = false) :
    add_document c url data t =
      { c with
          fs := deleteOldFiles (c.documents.filter (fun r => r.url == url))
                  (writeFile c.fs c.nextId data)
          documents := c.documents.filter (fun r => !(r.url == url)) ++
                         [⟨url, c.nextId, t⟩]
          nextId := c.nextId + 1 } := by
  unfold add_document
  rw [generate_filepath_eq _ _ _ hfree]

theorem pathsBounded_add_document (c : Cache) (url : String) (data : List Nat)
    (t : Int) (h : PathsBounded c) : PathsBounded (add_document c url data t) := by
  obtain ⟨hd, hf⟩ := h
  have hfree : isFile c.fs c.nextId = false := isFile_eq_false_of_bounded _ _ hf
  rw [add_document_eq c url data t hfree]
  unfold PathsBounded
  dsimp only
  constructor
  · intro r hr
    rcases List.mem_append.mp hr with h1 | h1
    · have := hd r (List.mem_filter.mp h1).1
      omega
    · simp only [List.mem_singleton] at h1
      subst h1
      exact Nat.lt_succ_self _
  · intro e he
    have h1 : e ∈ writeFile c.fs c.nextId data := mem_deleteOldFiles _ _ _ he
    unfold writeFile at h1
    rcases List.mem_cons.mp h1 with h2 | h2
    · subst h2
      omega
    · have := hf e (List.mem_filter.mp h2).1
      omega

theorem add_document_lookup (c : Cache) (url : String) (data : List Nat)
    (t : Int) (h : PathsBounded c) :
    findDocRow (add_document c url data t).documents url = some ⟨url, c.nextId, t⟩ ∧
    readFile (add_document c url data t).fs c.nextId = some data := by
  obtain ⟨hd, hf⟩ := h
  have hfree : isFile c.fs c.nextId = false := isFile_eq_false_of_bounded _ _ hf
  rw [add_document_eq c url data t hfree]
  constructor
  · exact findDocRow_add _ _ _ _
  · rw [readFile_deleteOldFiles]
    · exact readFile_writeFile_self _ _ _
    · intro r hr
      exact Nat.ne_of_lt (hd r (List.mem_filter.mp hr).1)

theorem get_document_add_document (c : Cache) (url : String) (data : List Nat)
    (t : Int) (h : PathsBounded c) :
    get_document (add_document c url data t) url = Except.ok data := by
  obtain ⟨h1, h2⟩ := add_document_lookup c url data t h
  unfold get_document
  rw [h1]
  simp only []
  rw [h2]

/-- C1: the claim says that with `max_age = N > 0` an entry recorded more than
`N` seconds before the check is reported absent. The code computes
`age = record_time - now` (negative for any past entry) instead of
`now - record_time`, so the test `age > max_age` never fires for a past entry:
here the entry is 100 seconds old, `max_age` is 10, and `has_item` still
returns true. -/
theorem has_item_reports_stale_entry_present :
    (1000 : Int) - 900 > 10 ∧
      has_item ⟨10, [⟨"http://example.org/item/1", "{}", 900⟩], [], [], [], 0⟩
        "http://example.org/item/1" 1000 = true := by
  refine ⟨by decide, ?_⟩
  decide

/-- C5: with `max_age = 0`, `has_item` returns true for an entry of any
nonnegative age: immediately after `add_item` and forever after. -/
theorem max_age_zero_never_expires (c : Cache) (url meta : String) (t now : Int)
    (h0 : c.max_age = 0) (ht : t ≤ now) :
    has_item (add_item c url meta t) url now = true := by
  unfold has_item add_item
  simp only []
  rw [findRow_add]
  simp only [existsRowNotTooOld, Option.map_some, h0]
  have : ¬ (t - now > 0) := by omega
  simp [this]

theorem max_age_zero_never_expires_witness :
    (emptyCache 0).max_age = 0 ∧ (0 : Int) ≤ 5 ∧
      has_item (add_item (emptyCache 0) "u" "m" 0) "u" 5 = true :=
  ⟨rfl, by decide, max_age_zero_never_expires (emptyCache 0) "u" "m" 0 5 rfl (by decide)⟩

/-- C8: `add_item` touches only the `items` table, so `has_document` and
`has_primary_text` are unchanged for every key. -/
theorem add_item_leaves_other_namespaces (c : Cache) (url meta : String)
    (t : Int) (k : String) (now : Int) :
    has_document (add_item c url meta t) k now = has_document c k now ∧
    has_primary_text (add_item c url meta t) k now = has_primary_text c k now :=
  ⟨rfl, rfl⟩

/-- C6: add followed by get on the same kind returns exactly the stored
payload: `add_item` then `get_item` gives back the metadata text,
`add_document` then `get_document` gives back the identical bytes, and
`add_primary_text` then `get_primary_text` gives back the text. -/
theorem add_get_roundtrip (c : Cache) (url meta : String) (t : Int)
    (durl : String) (data : List Nat) (purl ptext : String)
    (h : PathsBounded c) :
    get_item (add_item c url meta t) url = Except.ok meta ∧
    get_document (add_document c durl data t) durl = Except.ok data ∧
    get_primary_text (add_primary_text c purl ptext t) purl = Except.ok ptext := by
  refine ⟨?_, get_document_add_document c durl data t h, ?_⟩
  · unfold get_item add_item
    dsimp only
    rw [findRow_add]
  · unfold get_primary_text add_primary_text
    dsimp only
    rw [findRow_add]

theorem add_get_roundtrip_witness :
    PathsBounded (emptyCache 0) ∧
    (get_item (add_item (emptyCache 0) "u" "M" 0) "u" = Except.ok "M" ∧
     get_document (add_document (emptyCache 0) "d" [0, 255] 0) "d" =
       Except.ok [0, 255] ∧
     get_primary_text (add_primary_text (emptyCache 0) "p" "T" 0) "p" =
       Except.ok "T") := by
  have hpb : PathsBounded (emptyCache 0) := by
    constructor <;> intro x hx <;> simp [emptyCache] at hx
  exact ⟨hpb, add_get_roundtrip (emptyCache 0) "u" "M" 0 "d" [0, 255] "p" "T" hpb⟩

/-- C4: when the index has a row for the url but the backing file cannot be
read, `get_document` raises the storage error naming both the document url
and the file path — not the not-found error, and not some default content. -/
theorem get_document_unreadable_file_storage_error (c : Cache) (url : String)
    (r : DocRow) (hr : findDocRow c.documents url = some r)
    (hfile : readFile c.fs r.path = none) :
    get_document c url = Except.error (CacheError.storageError url r.path) := by
  unfold get_document
  rw [hr]
  dsimp only
  rw [hfile]

theorem get_document_unreadable_file_witness :
    findDocRow (⟨0, [], [⟨"d", 0, 0⟩], [], [], 1⟩ : Cache).documents "d" =
      some ⟨"d", 0, 0⟩ ∧
    readFile (⟨0, [], [⟨"d", 0, 0⟩], [], [], 1⟩ : Cache).fs (0 : Nat) = none ∧
    get_document (⟨0, [], [⟨"d", 0, 0⟩], [], [], 1⟩ : Cache) "d" =
      Except.error (CacheError.storageError "d" 0) :=
  ⟨rfl, rfl,
    get_document_unreadable_file_storage_error _ "d" ⟨"d", 0, 0⟩ rfl rfl⟩

/-- C3: two `add_document` calls on the same url leave exactly one row for
the url, `get_document` returns the second payload, and the blob file that
backed the first payload no longer exists on disk. -/
theorem add_document_replaces (c : Cache) (url : String) (b1 b2 : List Nat)
    (t1 t2 : Int) (h : PathsBounded c) :
    ((add_document (add_document c url b1 t1) url b2 t2).documents.filter
        (fun r => r.url == url)).length = 1 ∧
    get_document (add_document (add_document c url b1 t1) url b2 t2) url =
      Except.ok b2 ∧
    ∀ r ∈ (add_document c url b1 t1).documents, r.url = url →
      isFile (add_document (add_document c url b1 t1) url b2 t2).fs r.path
        = false := by
  obtain ⟨hd, hf⟩ := h
  have hfree : isFile c.fs c.nextId = false := isFile_eq_false_of_bounded _ _ hf
  have h1 : PathsBounded (add_document c url b1 t1) :=
    pathsBounded_add_document c url b1 t1 ⟨hd, hf⟩
  have hfree1 : isFile (add_document c url b1 t1).fs
      (add_document c url b1 t1).nextId = false :=
    isFile_eq_false_of_bounded _ _ h1.2
  have hnext1 : (add_document c url b1 t1).nextId = c.nextId + 1 := by
    rw [add_document_eq c url b1 t1 hfree]
  have hread1 : readFile (add_document c url b1 t1).fs c.nextId = some b1 :=
    (add_document_lookup c url b1 t1 ⟨hd, hf⟩).2
  have hdocs1 : (add_document c url b1 t1).documents =
      c.documents.filter (fun r => !(r.url == url)) ++ [⟨url, c.nextId, t1⟩] := by
    rw [add_document_eq c url b1 t1 hfree]
  refine ⟨?_, get_document_add_document _ url b2 t2 h1, ?_⟩
  · rw [add_document_eq _ url b2 t2 hfree1]
    dsimp only
    rw [filter_of_filter_not_append _ _ _ (by simp)]
    rfl
  · intro r hr hrurl
    have hrpath : r.path = c.nextId := by
      rw [hdocs1] at hr
      rcases List.mem_append.mp hr with h2 | h2
      · have := (List.mem_filter.mp h2).2
        rw [hrurl] at this
        simp at this
      · simp only [List.mem_singleton] at h2
        rw [h2]
    rw [add_document_eq _ url b2 t2 hfree1]
    dsimp only
    rw [hdocs1, filter_of_filter_not_append _ _ _ (by simp), hrpath]
    have hne : c.nextId ≠ (add_document c url b1 t1).nextId := by omega
    have hrw : readFile
        (writeFile (add_document c url b1 t1).fs
          (add_document c url b1 t1).nextId b2) c.nextId = some b1 := by
      rw [readFile_writeFile_ne _ _ _ _ hne, hread1]
    unfold deleteOldFiles
    rw [List.foldl_cons]
    dsimp only
    have hIsF : isFile (writeFile (add_document c url b1 t1).fs
        (add_document c url b1 t1).nextId b2) c.nextId = true := by
      rw [isFile_eq_readFile_isSome, hrw]
      rfl
    rw [if_pos hIsF, List.foldl_nil]
    exact isFile_unlink_self _ _

theorem add_document_replaces_witness :
    PathsBounded (emptyCache 0) ∧
    (((add_document (add_document (emptyCache 0) "d" [1] 0) "d" [2] 1).documents.filter
        (fun r => r.url == "d")).length = 1 ∧
      get_document (add_document (add_document (emptyCache 0) "d" [1] 0) "d" [2] 1)
        "d" = Except.ok [2] ∧
      ∀ r ∈ (add_document (emptyCache 0) "d" [1] 0).documents, r.url = "d" →
        isFile (add_document (add_document (emptyCache 0) "d" [1] 0) "d" [2] 1).fs
          r.path = false) := by
  have hpb : PathsBounded (emptyCache 0) := by
    constructor <;> intro x hx <;> simp [emptyCache] at hx
  exact ⟨hpb, add_document_replaces (emptyCache 0) "d" [1] [2] 0 1 hpb⟩

/-! ### Sequences of cache-mutating operations, for the miss-semantics claim -/

/-- One public cache-mutating call. -/
inductive CacheOp where
  | itemOp : String → String → Int → CacheOp
  | documentOp : String → List Nat → Int → CacheOp
  | primaryTextOp : String → String → Int → CacheOp
deriving DecidableEq, Repr

def applyOp (c : Cache) : CacheOp → Cache
  | CacheOp.itemOp url meta t => add_item c url meta t
  | CacheOp.documentOp url data t => add_document c url data t
  | CacheOp.primaryTextOp url text t => add_primary_text c url text t

/-- Run a sequence of cache-mutating calls in order. -/
def run (c : Cache) (ops : List CacheOp) : Cache :=
  ops.foldl applyOp c

/-- Whether an operation writes the given key into the `items` table. -/
def writesItem (url : String) : CacheOp → Bool
  | CacheOp.itemOp u _ _ => u == url
  | _ => false

/-- Whether an operation writes the given key into the `documents` table. -/
def writesDocument (url : String) : CacheOp → Bool
  | CacheOp.documentOp u _ _ => u == url
  | _ => false

/-- Whether an operation writes the given key into the `primary_texts` table. -/
def writesPrimaryText (url : String) : CacheOp → Bool
  | CacheOp.primaryTextOp u _ _ => u == url
  | _ => false

theorem findRow_none_applyOp_items (c : Cache) (op : CacheOp) (url : String)
    (hbase : findRow c.items url = none) (hop : writesItem url op = false) :
    findRow (applyOp c op).items url = none := by
  cases op with
  | itemOp u m t =>
    unfold applyOp add_item
    dsimp only
    unfold findRow at hbase ⊢
    rw [find?_append_of_none _ _ _ (find?_filter_of_none _ _ _ hbase)]
    have hop2 : (u == url) = false := hop
    simp [List.find?, hop2]
  | documentOp u d t => exact hbase
  | primaryTextOp u p t => exact hbase

theorem findDocRow_none_applyOp (c : Cache) (op : CacheOp) (url : String)
    (hbase : findDocRow c.documents url = none)
    (hop : writesDocument url op = false) :
    findDocRow (applyOp c op).documents url = none := by
  cases op with
  | itemOp u m t => exact hbase
  | documentOp u d t =>
    unfold applyOp add_document
    dsimp only
    unfold findDocRow at hbase ⊢
    rw [find?_append_of_none _ _ _ (find?_filter_of_none _ _ _ hbase)]
    have hop2 : (u == url) = false := hop
    simp [List.find?, hop2]
  | primaryTextOp u p t => exact hbase

theorem findRow_none_applyOp_ptexts (c : Cache) (op : CacheOp) (url : String)
    (hbase : findRow c.primary_texts url = none)
    (hop : writesPrimaryText url op = false) :
    findRow (applyOp c op).primary_texts url = none := by
  cases op with
  | itemOp u m t => exact hbase
  | documentOp u d t => exact hbase
  | primaryTextOp u p t =>
    unfold applyOp add_primary_text
    dsimp only
    unfold findRow at hbase ⊢
    rw [find?_append_of_none _ _ _ (find?_filter_of_none _ _ _ hbase)]
    have hop2 : (u == url) = false := hop
    simp [List.find?, hop2]

theorem findRow_none_run_items (c : Cache) (ops : List CacheOp) (url : String)
    (hbase : findRow c.items url = none)
    (h : ∀ op ∈ ops, writesItem url op = false) :
    findRow (run c ops).items url = none := by
  induction ops generalizing c with
  | nil => exact hbase
  | cons op ops ih =>
    exact ih (applyOp c op)
      (findRow_none_applyOp_items c op url hbase (h op (by simp)))
      (fun x hx => h x (by simp [hx]))

theorem findDocRow_none_run (c : Cache) (ops : List CacheOp) (url : String)
    (hbase : findDocRow c.documents url = none)
    (h : ∀ op ∈ ops, writesDocument url op = false) :
    findDocRow (run c ops).documents url = none := by
  induction ops generalizing c with
  | nil => exact hbase
  | cons op ops ih =>
    exact ih (applyOp c op)
      (findDocRow_none_applyOp c op url hbase (h op (by simp)))
      (fun x hx => h x (by simp [hx]))

theorem findRow_none_run_ptexts (c : Cache) (ops : List CacheOp) (url : String)
    (hbase : findRow c.primary_texts url = none)
    (h : ∀ op ∈ ops, writesPrimaryText url op = false) :
    findRow (run c ops).primary_texts url = none := by
  induction ops generalizing c with
  | nil => exact hbase
  | cons op ops ih =>
    exact ih (applyOp c op)
      (findRow_none_applyOp_ptexts c op url hbase (h op (by simp)))
      (fun x hx => h x (by simp [hx]))

/-- C7: for a key never added to a namespace, the `has_*` check of that
namespace is false and the `get_*` lookup raises the not-found error, in
each of the three namespaces. -/
theorem never_added_not_found (a : Int) (ops : List CacheOp)
    (iurl durl purl : String) (now : Int)
    (hi : ∀ op ∈ ops, writesItem iurl op = false)
    (hdo : ∀ op ∈ ops, writesDocument durl op = false)
    (hp : ∀ op ∈ ops, writesPrimaryText purl op = false) :
    (has_item (run (emptyCache a) ops) iurl now = false ∧
     get_item (run (emptyCache a) ops) iurl = Except.error CacheError.notFound) ∧
    (has_document (run (emptyCache a) ops) durl now = false ∧
     get_document (run (emptyCache a) ops) durl =
       Except.error CacheError.notFound) ∧
    (has_primary_text (run (emptyCache a) ops) purl now = false ∧
     get_primary_text (run (emptyCache a) ops) purl =
       Except.error CacheError.notFound) := by
  have h1 := findRow_none_run_items (emptyCache a) ops iurl rfl hi
  have h2 := findDocRow_none_run (emptyCache a) ops durl rfl hdo
  have h3 := findRow_none_run_ptexts (emptyCache a) ops purl rfl hp
  refine ⟨⟨?_, ?_⟩, ⟨?_, ?_⟩, ⟨?_, ?_⟩⟩
  · unfold has_item
    rw [h1]
    rfl
  · unfold get_item
    rw [h1]
  · unfold has_document
    rw [h2]
    rfl
  · unfold get_document
    rw [h2]
  · unfold has_primary_text
    rw [h3]
    rfl
  · unfold get_primary_text
    rw [h3]

theorem never_added_not_found_witness :
    (∀ op ∈ [CacheOp.itemOp "a" "m" 0, CacheOp.documentOp "b" [1] 0,
        CacheOp.primaryTextOp "c" "t" 0], writesItem "x" op = false) ∧
    (∀ op ∈ [CacheOp.itemOp "a" "m" 0, CacheOp.documentOp "b" [1] 0,
        CacheOp.primaryTextOp "c" "t" 0], writesDocument "y" op = false) ∧
    (∀ op ∈ [CacheOp.itemOp "a" "m" 0, CacheOp.documentOp "b" [1] 0,
        CacheOp.primaryTextOp "c" "t" 0], writesPrimaryText "z" op = false) ∧
    ((has_item (run (emptyCache 0) [CacheOp.itemOp "a" "m" 0,
          CacheOp.documentOp "b" [1] 0, CacheOp.primaryTextOp "c" "t" 0]) "x" 7
        = false ∧
      get_item (run (emptyCache 0) [CacheOp.itemOp "a" "m" 0,
          CacheOp.documentOp "b" [1] 0, CacheOp.primaryTextOp "c" "t" 0]) "x"
        = Except.error CacheError.notFound) ∧
     (has_document (run (emptyCache 0) [CacheOp.itemOp "a" "m" 0,
          CacheOp.documentOp "b" [1] 0, CacheOp.primaryTextOp "c" "t" 0]) "y" 7
        = false ∧
      get_document (run (emptyCache 0) [CacheOp.itemOp "a" "m" 0,
          CacheOp.documentOp "b" [1] 0, CacheOp.primaryTextOp "c" "t" 0]) "y"
        = Except.error CacheError.notFound) ∧
     (has_primary_text (run (emptyCache 0) [CacheOp.itemOp "a" "m" 0,
          CacheOp.documentOp "b" [1] 0, CacheOp.primaryTextOp "c" "t" 0]) "z" 7
        = false ∧
      get_primary_text (run (emptyCache 0) [CacheOp.itemOp "a" "m" 0,
          CacheOp.documentOp "b" [1] 0, CacheOp.primaryTextOp "c" "t" 0]) "z"
        = Except.error CacheError.notFound)) := by
  refine ⟨by decide, by decide, by decide, ?_⟩
  exact never_added_not_found 0
    [CacheOp.itemOp "a" "m" 0, CacheOp.documentOp "b" [1] 0,
      CacheOp.primaryTextOp "c" "t" 0] "x" "y" "z" 7
    (by decide) (by decide) (by decide)

/-! ### The fetch-or-cache coordinator of the client (pyalveo/pyalveo.py) -/

/-- The cache-policy switches of a `Client`. -/
structure ClientCfg where
  use_cache : Bool
  update_cache : Bool
deriving DecidableEq, Repr

/-- `Client.get_item`: read the cache only when `use_cache` is set, the
download is not forced, and `has_item` passes; otherwise fetch the metadata
from the transport and, when `update_cache` is set, write it back. The
transport is the function `api`; the returned value is the metadata text the
`Item` object is built from. -/
def client_get_item (cfg : ClientCfg) (api : String → String) (c : Cache)
    (url : String) (force : Bool) (now : Int) :
    Except CacheError (String × Cache) :=
  if cfg.use_cache && !force && has_item c url now then
    match get_item c url with
    | Except.ok j => Except.ok (j, c)
    | Except.error e => Except.error e
  else
    let j := api url
    Except.ok (j, if cfg.update_cache then add_item c url j now else c)

/-- `Client.get_document`. -/
def client_get_document (cfg : ClientCfg) (api : String → List Nat) (c : Cache)
    (url : String) (force : Bool) (now : Int) :
    Except CacheError (List Nat × Cache) :=
  if cfg.use_cache && !force && has_document c url now then
    match get_document c url with
    | Except.ok d => Except.ok (d, c)
    | Except.error e => Except.error e
  else
    let d := api url
    Except.ok (d, if cfg.update_cache then add_document c url d now else c)

/-- `Client.get_primary_text`: first obtain the item metadata via
`Client.get_item` called without the force flag; extract the primary-text
url from it (`parseMeta` stands for the `alveo:primary_text_url` field
access, `none` for its KeyError); return `none` on the sentinel; otherwise
fetch the text, from the cache when `use_cache` holds, the download is not
forced and `has_primary_text` passes, else from the transport `apiText`
followed by the `update_cache` write-back. -/
def client_get_primary_text (cfg : ClientCfg) (api : String → String)
    (apiText : String → String) (parseMeta : String → Option String)
    (c : Cache) (url : String) (force : Bool) (now : Int) :
    Except CacheError (Option String × Cache) :=
  match client_get_item cfg api c url false now with
  | Except.error e => Except.error e
  | Except.ok (item_json, c1) =>
    match parseMeta item_json with
    | none => Except.ok (none, c1)
    | some ptUrl =>
      if ptUrl == "No primary text found" then Except.ok (none, c1)
      else if cfg.use_cache && !force && has_primary_text c1 url now then
        match get_primary_text c1 url with
        | Except.ok t => Except.ok (some t, c1)
        | Except.error e => Except.error e
      else
        let t := apiText ptUrl
        Except.ok (some t,
          if cfg.update_cache then add_primary_text c1 url t now else c1)

/-- C2: with `force_download` the payload always comes from the transport
and is written back exactly when `update_cache` is set; with `use_cache`
false the cache is never read — the result is the transport payload for
every cache state and every force flag — yet still written back when
`update_cache` is set. The fifth part states the forced fetch for the
primary-text payload: whatever the (unforced) metadata step produced, the
text itself comes from the transport and is written back per `update_cache`.
The sixth part is the primary-text fetch with `use_cache` false and any
force flag: the result is built from the transport outputs alone — the
metadata from `api url`, the text from `apiText` — for every cache state,
with the item and primary-text write-backs exactly when `update_cache`. -/
theorem client_fetch_policy (api : String → String) (apiD : String → List Nat)
    (apiText : String → String) (parseMeta : String → Option String)
    (c : Cache) (url : String) (now : Int) (u : Bool) (force : Bool) :
    (∀ cfg : ClientCfg, client_get_item cfg api c url true now =
      Except.ok (api url,
        if cfg.update_cache then add_item c url (api url) now else c)) ∧
    (∀ cfg : ClientCfg, client_get_document cfg apiD c url true now =
      Except.ok (apiD url,
        if cfg.update_cache then add_document c url (apiD url) now else c)) ∧
    (client_get_item ⟨false, u⟩ api c url force now =
      Except.ok (api url, if u then add_item c url (api url) now else c)) ∧
    (client_get_document ⟨false, u⟩ apiD c url force now =
      Except.ok (apiD url, if u then add_document c url (apiD url) now else c)) ∧
    (∀ cfg : ClientCfg, ∀ j : String, ∀ c1 : Cache, ∀ ptUrl : String,
      client_get_item cfg api c url false now = Except.ok (j, c1) →
      parseMeta j = some ptUrl →
      (ptUrl == "No primary text found") = false →
      client_get_primary_text cfg api apiText parseMeta c url true now =
        Except.ok (some (apiText ptUrl),
          if cfg.update_cache then add_primary_text c1 url (apiText ptUrl) now
          else c1)) ∧
    (client_get_primary_text ⟨false, u⟩ api apiText parseMeta c url force now =
      match parseMeta (api url) with
      | none => Except.ok (none, if u then add_item c url (api url) now else c)
      | some ptUrl =>
        if ptUrl == "No primary text found" then
          Except.ok (none, if u then add_item c url (api url) now else c)
        else
          Except.ok (some (apiText ptUrl),
            if u then
              add_primary_text (add_item c url (api url) now) url
                (apiText ptUrl) now
            else c)) := by
  refine ⟨?_, ?_, ?_, ?_, ?_, ?_⟩
  · intro cfg
    unfold client_get_item
    simp
  · intro cfg
    unfold client_get_document
    simp
  · unfold client_get_item
    simp
  · unfold client_get_document
    simp
  · intro cfg j c1 ptUrl h1 h2 h3
    unfold client_get_primary_text
    rw [h1]
    dsimp only
    rw [h2]
    dsimp only
    simp [h3]
  · have hstep : client_get_item ⟨false, u⟩ api c url false now =
        Except.ok (api url, if u then add_item c url (api url) now else c) := by
      unfold client_get_item
      simp
    unfold client_get_primary_text
    rw [hstep]
    dsimp only
    cases hpm : parseMeta (api url) with
    | none => rfl
    | some ptUrl =>
      cases hs : (ptUrl == "No primary text found") with
      | true => simp [hs]
      | false =>
        cases u with
        | true => simp [hs]
        | false => simp [hs]

theorem client_fetch_policy_witness :
    client_get_item ⟨false, false⟩ (fun _ => "J") (emptyCache 0) "u" false 0 =
      Except.ok ("J", emptyCache 0) ∧
    (fun _ : String => some "P") "J" = some "P" ∧
    (("P" : String) == "No primary text found") = false ∧
    client_get_primary_text ⟨false, false⟩ (fun _ => "J") (fun _ => "T")
        (fun _ => some "P") (emptyCache 0) "u" true 0 =
      Except.ok (some "T", emptyCache 0) := by
  refine ⟨rfl, rfl, by decide, ?_⟩
  exact (client_fetch_policy (fun _ => "J") (fun _ => [1]) (fun _ => "T")
    (fun _ => some "P") (emptyCache 0) "u" 0 false false).2.2.2.2.1
    ⟨false, false⟩ "J" (emptyCache 0) "P" rfl rfl (by decide)

/-- C10: `Client.get_primary_text` calls `Client.get_item` without the force
flag, so even on a forced download the metadata (and with it the resolved
primary-text url) is served from the cache when the item is cached and
fresh; only the primary-text payload itself is fetched from the transport. -/
theorem forced_primary_text_metadata_from_cache (cfg : ClientCfg)
    (api apiText : String → String) (parseMeta : String → Option String)
    (c : Cache) (url : String) (now : Int) (r : TextRow) (ptUrl : String)
    (huse : cfg.use_cache = true)
    (hrow : findRow c.items url = some r)
    (hfresh : has_item c url now = true)
    (hpt : parseMeta r.payload = some ptUrl)
    (hsent : (ptUrl == "No primary text found") = false) :
    client_get_primary_text cfg api apiText parseMeta c url true now =
      Except.ok (some (apiText ptUrl),
        if cfg.update_cache then add_primary_text c url (apiText ptUrl) now
        else c) := by
  have hget : client_get_item cfg api c url false now =
      Except.ok (r.payload, c) := by
    unfold client_get_item
    rw [huse, hfresh]
    simp only [Bool.not_false, Bool.and_true, Bool.true_and]
    rw [if_pos trivial]
    unfold get_item
    rw [hrow]
  unfold client_get_primary_text
  rw [hget]
  dsimp only
  rw [hpt]
  dsimp only
  simp [hsent]

theorem forced_primary_text_witness :
    (⟨true, true⟩ : ClientCfg).use_cache = true ∧
    findRow (add_item (emptyCache 0) "u" "J" 0).items "u" = some ⟨"u", "J", 0⟩ ∧
    has_item (add_item (emptyCache 0) "u" "J" 0) "u" 0 = true ∧
    (fun _ : String => some "P") "J" = some "P" ∧
    (("P" : String) == "No primary text found") = false ∧
    client_get_primary_text ⟨true, true⟩ (fun _ => "X") (fun _ => "T")
        (fun _ => some "P") (add_item (emptyCache 0) "u" "J" 0) "u" true 0 =
      Except.ok (some "T",
        add_primary_text (add_item (emptyCache 0) "u" "J" 0) "u" "T" 0) := by
  refine ⟨rfl, rfl, rfl, rfl, by decide, ?_⟩
  exact forced_primary_text_metadata_from_cache ⟨true, true⟩ (fun _ => "X")
    (fun _ => "T") (fun _ => some "P") (add_item (emptyCache 0) "u" "J" 0)
    "u" 0 ⟨"u", "J", 0⟩ "P" rfl rfl rfl rfl (by decide)

/-! ### Construction of the cache directory tree (Cache.__init__) -/

/-- A node of the directory tree: a directory or a regular file. -/
inductive FSNode where
  | dir : FSNode
  | file : FSNode
deriving DecidableEq, Repr

def nodeAt (fs : List (String × FSNode)) (p : String) : Option FSNode :=
  (fs.find? (fun e => e.1 == p)).map (fun e => e.2)

/-- `os.path.exists`. -/
def pathExists (fs : List (String × FSNode)) (p : String) : Bool :=
  (nodeAt fs p).isSome

/-- `os.path.isdir`. -/
def isDirNode (fs : List (String × FSNode)) (p : String) : Bool :=
  nodeAt fs p == some FSNode.dir

/-- `os.path.isfile`. -/
def isFileNode (fs : List (String × FSNode)) (p : String) : Bool :=
  nodeAt fs p == some FSNode.file

/-- `os.makedirs(file_dir)`: create the chain cache_dir → files, failing when
the parent exists as a regular file. -/
def makedirs (fs : List (String × FSNode)) (cache_dir file_dir : String) :
    Except String (List (String × FSNode)) :=
  if isFileNode fs cache_dir then Except.error "NotADirectoryError"
  else
    let fs1 := if pathExists fs cache_dir then fs else (cache_dir, FSNode.dir) :: fs
    Except.ok ((file_dir, FSNode.dir) :: fs1)

/-- `Cache.__init__` on the directory tree (the SQLite schema creation is
represented by creating the database file). Mirrors the source: if
`file_dir` does not exist, `makedirs(file_dir)`; elif `cache_dir` — the
source tests `self.cache_dir` here, not `self.file_dir` — is not a
directory, raise; then create the database file when it is absent. -/
def cache_init (fs : List (String × FSNode)) (cache_dir : String) :
    Except String (List (String × FSNode)) :=
  let database := cache_dir ++ "/alveo_cache.db"
  let file_dir := cache_dir ++ "/files"
  match (if pathExists fs file_dir = false then makedirs fs cache_dir file_dir
         else if isDirNode fs cache_dir = false then
           Except.error "file_dir exists and is not a directory"
         else Except.ok fs) with
  | Except.error e => Except.error e
  | Except.ok fs1 =>
    if isFileNode fs1 database = false then
      Except.ok ((database, FSNode.file) :: fs1)
    else Except.ok fs1

/-- C9: the claim says construction fails whenever the `files` subdirectory
path exists and is not a directory. The source instead tests
`os.path.isdir(self.cache_dir)` in that branch — although its own message
reads "file_dir exists and is not a directory" — so with `tmp` a directory
and `tmp/files` a regular file, construction succeeds without any error. -/
theorem cache_init_accepts_file_as_file_dir :
    isFileNode [("tmp", FSNode.dir), ("tmp/files", FSNode.file)] "tmp/files"
      = true ∧
    cache_init [("tmp", FSNode.dir), ("tmp/files", FSNode.file)] "tmp" =
      Except.ok [("tmp/alveo_cache.db", FSNode.file), ("tmp", FSNode.dir),
        ("tmp/files", FSNode.file)] :=
  ⟨rfl, rfl⟩

end PyAlveo
